import Mathlib

/-!
Shallow embedding of the cube transformation engine of the twisty-puzzle
program (src/game.js), together with proofs settling the frozen claims.

Modelling conventions, chosen so that every definition mirrors the source
exactly while staying in exact arithmetic:

* Render positions.  In the source a cubie's render position along each
  axis is `(coord - offset) * cubeSize` with `offset = (size - 1) / 2`
  and `cubeSize = 1` (or `10 / size` when `size > 10`).  All positions
  the program ever produces are integer multiples of `cubeSize / 2`, so
  we store positions in units of `cubeSize / 2`: the stored integer `P`
  stands for the real position `P * cubeSize / 2`.
* `Math.round` of JavaScript rounds half-integers toward positive
  infinity; on a value `P / 2` with integer `P` it is `(P + 1).fdiv 2`.
* The tolerance test `Math.abs(pos - layerPos) < 0.01` of
  `getCubiesInLayer` becomes, after multiplying through by
  `200 * den / cubeSize`, the exact integer inequality
  `100 * num * |P - L| < 2 * den` where `cubeSize = num / den`.
* A cubie's `quaternion` is represented as an integer 3x3 rotation
  matrix (all quaternions occurring in the program are 90-degree
  compositions); the source never writes to it after creation.
* `Math.random` is modelled as an oracle stream of rationals in `[0,1)`.
* The `async` structure of `rotate` is modelled operationally: a call
  either queues, completes synchronously (`animate = false`), or leaves
  a `pending` turn that a later `animDone` event (the animation
  callback finishing) completes.
-/

namespace TwistyMaster

/-- The three rotation axes accepted by `rotate`. -/
inductive Axis where
  | x
  | y
  | z
deriving DecidableEq, Repr

/-- Integer 3-vector: grid coordinates, scaled render positions, face
normals, and rotation-matrix columns. -/
structure IVec3 where
  x : Int
  y : Int
  z : Int
deriving DecidableEq, Repr

/-- Integer 3x3 matrix given by its three columns; models the cubie
quaternion (as a rotation matrix) in `getFaceColor`. -/
structure Mat3 where
  cx : IVec3
  cy : IVec3
  cz : IVec3
deriving DecidableEq, Repr

/-- Matrix application: linear combination of the columns. -/
def Mat3.apply (m : Mat3) (v : IVec3) : IVec3 :=
  ⟨m.cx.x * v.x + m.cy.x * v.y + m.cz.x * v.z,
   m.cx.y * v.x + m.cy.y * v.y + m.cz.y * v.z,
   m.cx.z * v.x + m.cy.z * v.y + m.cz.z * v.z⟩

/-- The identity rotation: the value of every cubie quaternion at
creation (three.js default). -/
def Mat3.id : Mat3 := ⟨⟨1, 0, 0⟩, ⟨0, 1, 0⟩, ⟨0, 0, 1⟩⟩

theorem Mat3.apply_id (v : IVec3) : Mat3.apply Mat3.id v = v := by
  cases v
  simp [Mat3.apply, Mat3.id]

/-- The colour table of the source (`COLORS`), as hex values. -/
def COLORSwhite : Nat := 0xffffff
def COLORSyellow : Nat := 0xffd500
def COLORSred : Nat := 0xc41e3a
def COLORSorange : Nat := 0xff5800
def COLORSblue : Nat := 0x0051ba
def COLORSgreen : Nat := 0x009e60
def COLORSblack : Nat := 0x111111

/-- One cubie.  `pos` is the render position in units of `cubeSize / 2`;
`user` is the logical grid position (`userData.x/y/z`); `m0 .. m5` are
the colour arguments passed to `getFaceMaterial` for the six faces in
material order `+X, -X, +Y, -Y, +Z, -Z` (`none` = the `null` argument,
rendered black); `orient` is the cubie quaternion. -/
structure Cubie where
  pos : IVec3
  user : IVec3
  m0 : Option Nat
  m1 : Option Nat
  m2 : Option Nat
  m3 : Option Nat
  m4 : Option Nat
  m5 : Option Nat
  orient : Mat3
deriving DecidableEq, Repr

/-- The colour argument of face `i`, as stored. -/
def materialArg (c : Cubie) : Fin 6 → Option Nat
  | 0 => c.m0
  | 1 => c.m1
  | 2 => c.m2
  | 3 => c.m3
  | 4 => c.m4
  | 5 => c.m5

/-- `material[i].color.getHex()`: the stored colour, black when the
creation argument was `null`. -/
def materialColor (c : Cubie) (i : Fin 6) : Nat :=
  (materialArg c i).getD COLORSblack

/-- `createCubie(x, y, z, offset)`: colour assignment and initial
placement.  Position `(x - offset) * cubeSize` in half-`cubeSize` units
is `2 * x - (size - 1)`. -/
def createCubie (size x y z : Nat) : Cubie :=
  { pos := ⟨2 * (x : Int) - ((size : Int) - 1),
            2 * (y : Int) - ((size : Int) - 1),
            2 * (z : Int) - ((size : Int) - 1)⟩
    user := ⟨(x : Int), (y : Int), (z : Int)⟩
    m0 := if x = size - 1 then some COLORSred else none
    m1 := if x = 0 then some COLORSorange else none
    m2 := if y = size - 1 then some COLORSwhite else none
    m3 := if y = 0 then some COLORSyellow else none
    m4 := if z = size - 1 then some COLORSblue else none
    m5 := if z = 0 then some COLORSgreen else none
    orient := Mat3.id }

/-- `createCube()`: the triple loop over `[0, size)` keeping only
surface cubies. -/
def createCube (size : Nat) : List Cubie :=
  (List.range size).flatMap fun x =>
    (List.range size).flatMap fun y =>
      (List.range size).filterMap fun z =>
        if x = 0 ∨ x = size - 1 ∨ y = 0 ∨ y = size - 1 ∨ z = 0 ∨ z = size - 1 then
          some (createCubie size x y z)
        else
          none

/-- Numerator of `this.cubeSize` (`1`, or `10 / size` when `size > 10`). -/
def cubeSizeNum (size : Nat) : Int := if 10 < size then 10 else 1

/-- Denominator of `this.cubeSize`. -/
def cubeSizeDen (size : Nat) : Int := if 10 < size then (size : Int) else 1

/-- Component of a vector along an axis. -/
def pickAxis (a : Axis) (v : IVec3) : Int :=
  match a with
  | .x => v.x
  | .y => v.y
  | .z => v.z

/-- `getCubiesInLayer`'s per-cubie test: the exact form of
`Math.abs(pos[axis] - (layer - offset) * cubeSize) < 0.01` in
half-`cubeSize` units (see the header: multiply through by
`200 * den / cubeSize`). -/
def inLayer (size : Nat) (a : Axis) (layer : Int) (c : Cubie) : Bool :=
  decide (100 * cubeSizeNum size * |pickAxis a c.pos - (2 * layer - ((size : Int) - 1))| <
    2 * cubeSizeDen size)

/-- `getCubiesInLayer(axis, layer)`. -/
def getCubiesInLayer (size : Nat) (cs : List Cubie) (a : Axis) (layer : Int) : List Cubie :=
  cs.filter (inLayer size a layer)

/-- `Math.cos(direction * PI / 2)` for integer `direction`. -/
def cosQ (d : Int) : Int :=
  if d.emod 4 = 0 then 1 else if d.emod 4 = 2 then -1 else 0

/-- `Math.sin(direction * PI / 2)` for integer `direction`. -/
def sinQ (d : Int) : Int :=
  if d.emod 4 = 1 then 1 else if d.emod 4 = 3 then -1 else 0

/-- The world-space effect on positions of rotating the rotation group
by `direction * PI / 2` about `a` (right-handed, the three.js
convention). -/
def rotateVec (a : Axis) (d : Int) (v : IVec3) : IVec3 :=
  let c := cosQ d
  let s := sinQ d
  match a with
  | .x => ⟨v.x, v.y * c - v.z * s, v.y * s + v.z * c⟩
  | .y => ⟨v.x * c + v.z * s, v.y, -(v.x * s) + v.z * c⟩
  | .z => ⟨v.x * c - v.y * s, v.x * s + v.y * c, v.z⟩

/-- `Math.round(p / cubeSize) * cubeSize` in half-`cubeSize` units:
JavaScript rounds halves toward positive infinity. -/
def snapHalf (p : Int) : Int := 2 * ((p + 1).fdiv 2)

/-- `Math.round(p / cubeSize + offset)` applied to an already snapped
position, in half-`cubeSize` units. -/
def userFromPos (size : Nat) (p : Int) : Int := (p + (size : Int)).fdiv 2

/-- The whole per-cubie effect of a completed turn: world rotation of
the position followed by `updateCubiePosition` (snap to grid, then
recompute `userData`).  The quaternion is not touched - the source
copies only `getWorldPosition` back and resets the rotation group. -/
def turnCubie (size : Nat) (a : Axis) (d : Int) (c : Cubie) : Cubie :=
  let p := rotateVec a d c.pos
  let q : IVec3 := ⟨snapHalf p.x, snapHalf p.y, snapHalf p.z⟩
  { c with
    pos := q
    user := ⟨userFromPos size q.x, userFromPos size q.y, userFromPos size q.z⟩ }

/-- The six local face normals in material order (`getFaceColor`'s
`switch`). -/
def localNormal : Fin 6 → IVec3
  | 0 => ⟨1, 0, 0⟩
  | 1 => ⟨-1, 0, 0⟩
  | 2 => ⟨0, 1, 0⟩
  | 3 => ⟨0, -1, 0⟩
  | 4 => ⟨0, 0, 1⟩
  | 5 => ⟨0, 0, -1⟩

/-- Dot product. -/
def dotV (a b : IVec3) : Int := a.x * b.x + a.y * b.y + a.z * b.z

/-- `getFaceColor`'s candidate axes, in declaration order. -/
def axesList : List (IVec3 × Fin 6) :=
  [(⟨1, 0, 0⟩, 0), (⟨-1, 0, 0⟩, 1), (⟨0, 1, 0⟩, 2),
   (⟨0, -1, 0⟩, 3), (⟨0, 0, 1⟩, 4), (⟨0, 0, -1⟩, 5)]

/-- The `maxDot / bestIndex` fold of `getFaceColor`: `maxDot` starts at
minus infinity (`none`), strict `>` keeps the first maximum. -/
def bestAxisIdx (w : IVec3) : Fin 6 :=
  (axesList.foldl
    (fun acc p =>
      match acc.1 with
      | none => (some (dotV w p.1), p.2)
      | some m => if dotV w p.1 > m then (some (dotV w p.1), p.2) else acc)
    ((none : Option Int), (0 : Fin 6))).2

/-- `getFaceColor(cubie, faceIndex)`: rotate the queried face's local
normal by the cubie quaternion, match against the canonical axes, and
return that material's colour. -/
def getFaceColor (c : Cubie) (i : Fin 6) : Nat :=
  materialColor c (bestAxisIdx (Mat3.apply c.orient (localNormal i)))

/-- The boundary test `isSolved` uses to collect a cubie into face list
`d` (`right, left, top, bottom, front, back` in material order). -/
def onFaceLayer (size : Nat) (d : Fin 6) (c : Cubie) : Bool :=
  match d with
  | 0 => c.user.x == (size : Int) - 1
  | 1 => c.user.x == 0
  | 2 => c.user.y == (size : Int) - 1
  | 3 => c.user.y == 0
  | 4 => c.user.z == (size : Int) - 1
  | 5 => c.user.z == 0

/-- The colours pushed into one face list by `isSolved`. -/
def faceListDir (size : Nat) (cs : List Cubie) (d : Fin 6) : List Nat :=
  (cs.filter (onFaceLayer size d)).map (fun c => getFaceColor c d)

/-- `face.every(c => c === firstColor)` guarded by `face.length > 0`. -/
def allSameHead : List Nat → Bool
  | [] => true
  | c :: rest => (c :: rest).all (fun v => v == c)

/-- `isSolved()`. -/
def isSolvedCheck (size : Nat) (cs : List Cubie) : Bool :=
  (List.finRange 6).all fun d => allSameHead (faceListDir size cs d)

/-- A queued turn request: the source stores only `axis`, `layer` and
`direction` (`{ axis, layer, direction }`) - the `animate` flag is
dropped. -/
structure QueuedMove where
  axis : Axis
  layer : Int
  dir : Int
deriving DecidableEq, Repr

/-- A logical mutation that actually happened, labelled with the flag
the executing call ran under. -/
structure Exec where
  axis : Axis
  layer : Int
  dir : Int
  animatedRun : Bool
deriving DecidableEq, Repr

/-- The engine plus the session state the source keeps in the `state`
global: `isAnimating`, `moveQueue`, `moves`, `isTimerRunning`,
`isSolved`.  `pending` is the suspended stack frame of an animated
`rotate` awaiting its animation callback. -/
structure EngineState where
  size : Nat
  cubies : List Cubie
  isAnimating : Bool
  moveQueue : List QueuedMove
  pending : Option QueuedMove
  moves : Nat
  isTimerRunning : Bool
  isSolvedFlag : Bool
deriving DecidableEq, Repr

/-- `createPuzzle('cube', size)`: fresh solved cube, counters reset,
timer stopped. -/
def initState (size : Nat) : EngineState :=
  { size := size
    cubies := createCube size
    isAnimating := false
    moveQueue := []
    pending := none
    moves := 0
    isTimerRunning := false
    isSolvedFlag := true }

/-- The updates `rotate` performs before the rotation itself: set
`isAnimating`, start the timer on a first move of a solved puzzle,
increment the move counter. -/
def beginTurn (st : EngineState) : EngineState :=
  let st1 := { st with isAnimating := true }
  let st2 :=
    if !st1.isTimerRunning && st1.isSolvedFlag then
      { st1 with isTimerRunning := true, isSolvedFlag := false }
    else st1
  { st2 with moves := st2.moves + 1 }

/-- Everything `rotate` does after the (possibly animated) rotation has
run: bake positions, update logical positions, clear `isAnimating`, run
the solved check, and start the next queued turn - which is invoked
with `animate` defaulted to `true`. -/
def finishMutation (st : EngineState) (a : Axis) (l d : Int) (ranAnimated : Bool) :
    EngineState × List Exec :=
  let cs := st.cubies.map fun c => if inLayer st.size a l c then turnCubie st.size a d c else c
  let st2 := { st with cubies := cs, isAnimating := false, pending := none }
  let st3 :=
    if isSolvedCheck st2.size st2.cubies then
      { st2 with isSolvedFlag := true, isTimerRunning := false }
    else st2
  match st3.moveQueue with
  | [] => (st3, [⟨a, l, d, ranAnimated⟩])
  | q :: rest =>
      ({ beginTurn { st3 with moveQueue := rest } with pending := some q },
       [⟨a, l, d, ranAnimated⟩])

/-- `rotate(axis, layer, direction, animate)`.  Returns the new state
and the list of logical mutations that completed during the call. -/
def rotate (st : EngineState) (a : Axis) (l d : Int) (animate : Bool) :
    EngineState × List Exec :=
  if st.isAnimating then
    ({ st with moveQueue := st.moveQueue ++ [⟨a, l, d⟩] }, [])
  else
    let st1 := beginTurn st
    if animate then
      ({ st1 with pending := some ⟨a, l, d⟩ }, [])
    else
      finishMutation st1 a l d false

/-- The animation callback resolving: the suspended `rotate` resumes
and performs its mutation. -/
def animDone (st : EngineState) : EngineState × List Exec :=
  match st.pending with
  | none => (st, [])
  | some q => finishMutation st q.axis q.layer q.dir true

/-- Repeatedly let animations finish, with enough fuel. -/
def drainAux : Nat → EngineState → EngineState × List Exec
  | 0, st => (st, [])
  | fuel + 1, st =>
      match st.pending with
      | none => (st, [])
      | some _ =>
          let r := animDone st
          let r2 := drainAux fuel r.1
          (r2.1, r.2 ++ r2.2)

/-- Run the event loop until no animation is in flight: every queued
turn gets its turn. -/
def drain (st : EngineState) : EngineState × List Exec :=
  drainAux (st.moveQueue.length + 1) st

/-- `Math.floor(r * 3)` indexing `['x','y','z']`. -/
def axisOf (r : ℚ) : Axis :=
  if ⌊r * 3⌋ = 0 then .x else if ⌊r * 3⌋ = 1 then .y else .z

/-- `Math.floor(r * size)`. -/
def layerOf (size : Nat) (r : ℚ) : Int := ⌊r * (size : ℚ)⌋

/-- `Math.floor(r * 2)` indexing `[1, -1]`. -/
def dirOf (r : ℚ) : Int := if ⌊r * 2⌋ = 0 then 1 else -1

/-- `scramble`'s move count: the caller-supplied count, or the default
`Math.max(20, this.size * 5)` when the argument is `null`. -/
def scrambleCount (size : Nat) (count : Option Nat) : Nat :=
  match count with
  | none => max 20 (size * 5)
  | some n => n

/-- The requests `scramble` generates from the random oracle `rs`:
loop iteration `i` consumes `rs (3i)`, `rs (3i+1)`, `rs (3i+2)` for
axis, layer and direction. -/
def scrambleMoves (size : Nat) (count : Option Nat) (rs : Nat → ℚ) : List QueuedMove :=
  (List.range (scrambleCount size count)).map fun i =>
    ⟨axisOf (rs (3 * i)), layerOf size (rs (3 * i + 1)), dirOf (rs (3 * i + 2))⟩

/-- `scramble(moves)`: issue the random rotates non-animated, then
clear the solved flag and zero the move counter.  The timer is not
touched. -/
def scramble (st : EngineState) (count : Option Nat) (rs : Nat → ℚ) : EngineState :=
  let st1 := (scrambleMoves st.size count rs).foldl
    (fun s m => (rotate s m.axis m.layer m.dir false).1) st
  { st1 with isSolvedFlag := false, moves := 0 }

/-!
Specification-side definitions.  The following are written from the
wording of the claims (not from the source) and are only used on the
specification side of refinement statements.
-/

/-- Spec side of C2/C4: the exact grid embedding of a logical grid
position, in half-`cubeSize` units - the position a piece at
`gridPosition` `u` renders at. -/
def gridEmbed (size : Nat) (u : IVec3) : IVec3 :=
  ⟨2 * u.x - ((size : Int) - 1), 2 * u.y - ((size : Int) - 1), 2 * u.z - ((size : Int) - 1)⟩

/-- Spec side of C4: integer triples with each coordinate in
`[0, size-1]` and at least one coordinate equal to `0` or `size-1`. -/
def shellSpec (size : Nat) (v : IVec3) : Prop :=
  (0 ≤ v.x ∧ v.x ≤ (size : Int) - 1) ∧
  (0 ≤ v.y ∧ v.y ≤ (size : Int) - 1) ∧
  (0 ≤ v.z ∧ v.z ≤ (size : Int) - 1) ∧
  (v.x = 0 ∨ v.x = (size : Int) - 1 ∨ v.y = 0 ∨ v.y = (size : Int) - 1 ∨
   v.z = 0 ∨ v.z = (size : Int) - 1)

/-- Spec side of C4: the canonical direction-to-colour bijection, in
material order `+X, -X, +Y, -Y, +Z, -Z`. -/
def canonColor : Fin 6 → Nat
  | 0 => COLORSred
  | 1 => COLORSorange
  | 2 => COLORSwhite
  | 3 => COLORSyellow
  | 4 => COLORSblue
  | 5 => COLORSgreen

/-- Spec side of C4: a grid position is on the boundary face of
direction `i`. -/
def onBoundarySpec (size : Nat) (v : IVec3) : Fin 6 → Prop
  | 0 => v.x = (size : Int) - 1
  | 1 => v.x = 0
  | 2 => v.y = (size : Int) - 1
  | 3 => v.y = 0
  | 4 => v.z = (size : Int) - 1
  | 5 => v.z = 0

/-- Spec side of C3: the face whose orientation-rotated local normal
has the largest dot product with canonical world direction `d`, ties
broken by the first-declared face. -/
def specFacingFace (c : Cubie) (d : Fin 6) : Fin 6 :=
  ((List.finRange 6).foldl
    (fun acc f =>
      let s := dotV (Mat3.apply c.orient (localNormal f)) (localNormal d)
      match acc.1 with
      | none => (some s, f)
      | some m => if s > m then (some s, f) else acc)
    ((none : Option Int), (0 : Fin 6))).2

/-- Spec side of C3: the colour a piece shows toward world direction
`d` per the claim's nearest-direction rule. -/
def specFacingColor (c : Cubie) (d : Fin 6) : Nat :=
  materialColor c (specFacingFace c d)

/-- Spec side of C3: a piece occupies the boundary layer of direction
`d`. -/
def occupiesBoundary (size : Nat) (d : Fin 6) (c : Cubie) : Bool :=
  match d with
  | 0 => c.user.x == (size : Int) - 1
  | 1 => c.user.x == 0
  | 2 => c.user.y == (size : Int) - 1
  | 3 => c.user.y == 0
  | 4 => c.user.z == (size : Int) - 1
  | 5 => c.user.z == 0

/-- Spec side of C3: solved iff for each of the six directions every
piece occupying that boundary layer shows the same facing colour
(vacuously true for directions with no pieces). -/
def isSolvedSpecB (size : Nat) (cs : List Cubie) : Bool :=
  (List.finRange 6).all fun d =>
    (cs.filter (occupiesBoundary size d)).all fun p =>
      (cs.filter (occupiesBoundary size d)).all fun q =>
        specFacingColor p d == specFacingColor q d

/-- Rational 3-vector: a world-space face normal as the gesture code
sees it. -/
structure QVec3 where
  x : ℚ
  y : ℚ
  z : ℚ
deriving DecidableEq, Repr

/-- `onMouseMove`'s command construction, from the source: threshold
check, normal classification with Z as fallback, drag-direction
comparison, direction sign flip, layer from the hit piece's current
grid coordinate.  `n` is the hit face's world normal and `pu` the hit
piece's `userData`. -/
def onMouseMoveCommand (n : QVec3) (pu : IVec3) (dx dy : ℚ) : Option QueuedMove :=
  if |dx| > 30 ∨ |dy| > 30 then
    some
      (if |n.y| > 1 / 2 then
        if |dx| > |dy| then
          ⟨.z, pu.z, (if dx > 0 then 1 else -1) * (if n.y < 0 then -1 else 1)⟩
        else
          ⟨.x, pu.x, (if dy > 0 then -1 else 1) * (if n.y < 0 then -1 else 1)⟩
      else if |n.x| > 1 / 2 then
        if |dx| > |dy| then
          ⟨.y, pu.y, (if dx > 0 then -1 else 1) * (if n.x < 0 then -1 else 1)⟩
        else
          ⟨.z, pu.z, (if dy > 0 then 1 else -1) * (if n.x < 0 then -1 else 1)⟩
      else
        if |dx| > |dy| then
          ⟨.y, pu.y, (if dx > 0 then -1 else 1) * (if n.z < 0 then -1 else 1)⟩
        else
          ⟨.x, pu.x, (if dy > 0 then 1 else -1) * (if n.z < 0 then -1 else 1)⟩)
  else
    none

/-- Spec side of C7: dominant-axis classification - the first of Y, X,
Z whose component magnitude exceeds `0.5`, none if no component does. -/
inductive DomClass where
  | ofY
  | ofX
  | ofZ
deriving DecidableEq, Repr

/-- Spec side of C7: classification function. -/
def classifyNorm (n : QVec3) : Option DomClass :=
  if |n.y| > 1 / 2 then some .ofY
  else if |n.x| > 1 / 2 then some .ofX
  else if |n.z| > 1 / 2 then some .ofZ
  else none

/-- Spec side of C7: negate the base direction when the dominant normal
component is negative. -/
def signFlip (comp : ℚ) (b : Int) : Int := if comp < 0 then -b else b

/-- Spec side of C7: the claim's fixed table keyed by classification
and drag orientation, with the sign flip and the layer taken from the
hit piece's grid coordinate along the chosen axis. -/
def gestureSpec (n : QVec3) (pu : IVec3) (dx dy : ℚ) : Option QueuedMove :=
  if |dx| > 30 ∨ |dy| > 30 then
    match classifyNorm n with
    | some .ofY =>
        some (if |dx| > |dy| then
          ⟨.z, pu.z, signFlip n.y (if dx > 0 then 1 else -1)⟩
        else
          ⟨.x, pu.x, signFlip n.y (if dy > 0 then -1 else 1)⟩)
    | some .ofX =>
        some (if |dx| > |dy| then
          ⟨.y, pu.y, signFlip n.x (if dx > 0 then -1 else 1)⟩
        else
          ⟨.z, pu.z, signFlip n.x (if dy > 0 then 1 else -1)⟩)
    | some .ofZ =>
        some (if |dx| > |dy| then
          ⟨.y, pu.y, signFlip n.z (if dx > 0 then -1 else 1)⟩
        else
          ⟨.x, pu.x, signFlip n.z (if dy > 0 then 1 else -1)⟩)
    | none => none
  else
    none

/-!
Helper lemmas about the engine step functions.
-/

/-- Normal form of `beginTurn`: the timer/solved-flag conditional in
boolean algebra. -/
theorem beginTurn_eq (st : EngineState) :
    beginTurn st =
      { st with
        isAnimating := true
        moves := st.moves + 1
        isTimerRunning := st.isTimerRunning || st.isSolvedFlag
        isSolvedFlag := st.isSolvedFlag && st.isTimerRunning } := by
  cases hr : st.isTimerRunning <;> cases hf : st.isSolvedFlag <;>
    simp [beginTurn, hr, hf]

theorem beginTurn_cubies (st : EngineState) : (beginTurn st).cubies = st.cubies := by
  rw [beginTurn_eq]

theorem beginTurn_queue (st : EngineState) : (beginTurn st).moveQueue = st.moveQueue := by
  rw [beginTurn_eq]

/-- The cubie list produced by a completed turn. -/
def turnLayer (size : Nat) (cs : List Cubie) (a : Axis) (l d : Int) : List Cubie :=
  cs.map fun c => if inLayer size a l c then turnCubie size a d c else c

theorem finishMutation_cubies (st : EngineState) (a : Axis) (l d : Int) (fl : Bool) :
    (finishMutation st a l d fl).1.cubies = turnLayer st.size st.cubies a l d := by
  cases hq : st.moveQueue <;>
    by_cases hs : isSolvedCheck st.size (turnLayer st.size st.cubies a l d) <;>
    simp [finishMutation, turnLayer, beginTurn_eq, hq] at hs ⊢ <;> simp [hs]

theorem finishMutation_execs (st : EngineState) (a : Axis) (l d : Int) (fl : Bool) :
    (finishMutation st a l d fl).2 = [⟨a, l, d, fl⟩] := by
  cases hq : st.moveQueue <;>
    by_cases hs : isSolvedCheck st.size (turnLayer st.size st.cubies a l d) <;>
    simp [finishMutation, turnLayer, beginTurn_eq, hq] at hs ⊢ <;> simp [hs]

theorem finishMutation_queue (st : EngineState) (a : Axis) (l d : Int) (fl : Bool) :
    (finishMutation st a l d fl).1.moveQueue = st.moveQueue.tail := by
  cases hq : st.moveQueue <;>
    by_cases hs : isSolvedCheck st.size (turnLayer st.size st.cubies a l d) <;>
    simp [finishMutation, turnLayer, beginTurn_eq, hq] at hs ⊢ <;> simp [hs]

theorem finishMutation_pending (st : EngineState) (a : Axis) (l d : Int) (fl : Bool) :
    (finishMutation st a l d fl).1.pending = st.moveQueue.head? := by
  cases hq : st.moveQueue <;>
    by_cases hs : isSolvedCheck st.size (turnLayer st.size st.cubies a l d) <;>
    simp [finishMutation, turnLayer, beginTurn_eq, hq] at hs ⊢ <;> simp [hs]

theorem finishMutation_size (st : EngineState) (a : Axis) (l d : Int) (fl : Bool) :
    (finishMutation st a l d fl).1.size = st.size := by
  cases hq : st.moveQueue <;>
    by_cases hs : isSolvedCheck st.size (turnLayer st.size st.cubies a l d) <;>
    simp [finishMutation, turnLayer, beginTurn_eq, hq] at hs ⊢ <;> simp [hs]

theorem finishMutation_moves_nil (st : EngineState) (a : Axis) (l d : Int) (fl : Bool)
    (h : st.moveQueue = []) : (finishMutation st a l d fl).1.moves = st.moves := by
  by_cases hs : isSolvedCheck st.size (turnLayer st.size st.cubies a l d) <;>
    simp [finishMutation, turnLayer, h] at hs ⊢ <;> simp [hs]

theorem finishMutation_timer_nil (st : EngineState) (a : Axis) (l d : Int) (fl : Bool)
    (h : st.moveQueue = []) :
    (finishMutation st a l d fl).1.isTimerRunning =
      (st.isTimerRunning && !isSolvedCheck st.size (turnLayer st.size st.cubies a l d)) := by
  by_cases hs : isSolvedCheck st.size (turnLayer st.size st.cubies a l d) <;>
    simp [finishMutation, turnLayer, h] at hs ⊢ <;> simp [hs]

theorem rotate_queued (st : EngineState) (a : Axis) (l d : Int) (an : Bool)
    (h : st.isAnimating = true) :
    rotate st a l d an = ({ st with moveQueue := st.moveQueue ++ [⟨a, l, d⟩] }, []) := by
  simp [rotate, h]

theorem rotate_run (st : EngineState) (a : Axis) (l d : Int)
    (h : st.isAnimating = false) :
    rotate st a l d false = finishMutation (beginTurn st) a l d false := by
  simp [rotate, h]

/-- A completed turn never touches any cubie's stored quaternion. -/
theorem turnLayer_orient (size : Nat) (cs : List Cubie) (a : Axis) (l d : Int) :
    (turnLayer size cs a l d).map Cubie.orient = cs.map Cubie.orient := by
  unfold turnLayer
  rw [List.map_map]
  refine List.map_congr_left fun c _ => ?_
  by_cases h : inLayer size a l c = true <;> simp [h, turnCubie]

/-- Claim C1.  The claim says each selected piece's `orientation` is
composed with a 90-degree rotation about the turn axis.  The code never
writes the quaternion: `rotate` (in both its immediate and its
animation-completion form) leaves every cubie's orientation exactly as
it was, and every cubie is created with the identity orientation - so
the cumulative orientation never records any turn. -/
theorem C1_orientation_never_composed :
    (∀ (st : EngineState) (a : Axis) (l d : Int) (an : Bool),
      (rotate st a l d an).1.cubies.map Cubie.orient = st.cubies.map Cubie.orient) ∧
    (∀ st : EngineState,
      (animDone st).1.cubies.map Cubie.orient = st.cubies.map Cubie.orient) ∧
    (∀ size : Nat,
      (createCube size).map Cubie.orient =
        List.replicate ((createCube size).length) Mat3.id) := by
  have hfm : ∀ (st : EngineState) (a : Axis) (l d : Int) (fl : Bool),
      (finishMutation st a l d fl).1.cubies.map Cubie.orient = st.cubies.map Cubie.orient := by
    intro st a l d fl
    rw [finishMutation_cubies, turnLayer_orient]
  refine ⟨fun st a l d an => ?_, fun st => ?_, fun size => ?_⟩
  · unfold rotate
    by_cases h : st.isAnimating = true
    · simp [h]
    · simp only [Bool.not_eq_true] at h
      simp only [h, Bool.false_eq_true, if_false]
      by_cases ha : an = true
      · simp [ha, beginTurn_cubies]
      · simp only [Bool.not_eq_true] at ha
        simp only [ha, Bool.false_eq_true, if_false]
        rw [hfm, beginTurn_cubies]
  · unfold animDone
    cases h : st.pending with
    | none => rfl
    | some q => exact hfm st q.axis q.layer q.dir true
  · rw [← List.length_map (createCube size) Cubie.orient, List.eq_replicate_length]
    intro b hb
    rw [List.mem_map] at hb
    obtain ⟨c, hc, rfl⟩ := hb
    rw [createCube] at hc
    simp only [List.mem_flatMap, List.mem_range, List.mem_filterMap] at hc
    obtain ⟨x, -, y, -, z, -, hz⟩ := hc
    rw [Option.ite_none_right_eq_some] at hz
    obtain ⟨-, hz⟩ := hz
    simp only [Option.some.injEq] at hz
    rw [← hz]
    rfl

/-- Claim C8.  On a size-2 cube the very first quarter turn snaps the
half-integer render positions to whole-integer grid points
(`Math.round` rounds halves up), driving `userData` out of range; four
identical turns do not restore the pieces.  Turn used:
`rotate('x', 1, +1, false)` four times from the fresh cube. -/
theorem C8_four_turns_size2_not_identity :
    ((rotate ((rotate ((rotate ((rotate (initState 2) .x 1 1 false).1)
        .x 1 1 false).1) .x 1 1 false).1) .x 1 1 false).1).cubies.map Cubie.user ≠
      (initState 2).cubies.map Cubie.user := by
  decide

/-- Claim C9, counterexample.  `rotate('x', 5, +1)` on a fresh solved
3-cube has a layer index far outside `[0,2]`; the claim says the
command is rejected with no move-counter increment, but the code
processes it as a normal turn: the counter goes from 0 to 1 (and the
timer is started and stopped), with no error signalled. -/
theorem C9_counterexample :
    (rotate (initState 3) .x 5 1 false).1.moves = 1 ∧
      (rotate (initState 3) .x 5 1 false).1.cubies = (initState 3).cubies := by
  constructor
  · decide
  · decide

theorem pickAxis_gridEmbed (size : Nat) (a : Axis) (u : IVec3) :
    pickAxis a (gridEmbed size u) = 2 * pickAxis a u - ((size : Int) - 1) := by
  cases a <;> rfl

theorem cubeSizeDen_pos (size : Nat) : 0 < cubeSizeDen size := by
  unfold cubeSizeDen
  split <;> omega

/-- On a cubie whose render position is exactly the grid embedding of
its logical position, the tolerance test of `getCubiesInLayer` agrees
with integer equality of the grid coordinate (for any size below the
point `cubeSize <= 0.02` where the threshold would blur neighbours). -/
theorem inLayer_sync (size : Nat) (a : Axis) (l : Int) (c : Cubie)
    (hsync : c.pos = gridEmbed size c.user) (hN : size < 1000) :
    inLayer size a l c = (pickAxis a c.user == l) := by
  rw [inLayer, hsync, pickAxis_gridEmbed]
  have h2 : 2 * pickAxis a c.user - ((size : Int) - 1) - (2 * l - ((size : Int) - 1)) =
      2 * (pickAxis a c.user - l) := by ring
  rw [h2, abs_mul]
  by_cases he : pickAxis a c.user = l
  · have hd := cubeSizeDen_pos size
    simp only [he, sub_self, abs_zero, mul_zero, beq_self_eq_true]
    simp only [decide_eq_true_eq]
    positivity
  · have h1 : 1 ≤ |pickAxis a c.user - l| := Int.one_le_abs (sub_ne_zero.mpr he)
    have hne : (pickAxis a c.user == l) = false := by
      simpa using he
    rw [hne, decide_eq_false_iff_not]
    intro hlt
    have habs : |(2 : Int)| = 2 := by norm_num
    rw [habs] at hlt
    unfold cubeSizeNum cubeSizeDen at hlt
    by_cases h10 : 10 < size
    · simp only [h10, if_true] at hlt
      have hsz : (size : Int) < 1000 := by exact_mod_cast hN
      nlinarith [hlt, h1, hsz]
    · simp only [h10, if_false] at hlt
      nlinarith [hlt, h1]

/-- Claim C2, counterexample.  After the one completed turn
`rotate('x', 1, +1, false)` on a fresh size-2 cube (a reachable state:
the snap-to-grid step has moved the render positions off the
half-integer grid and out of sync with `userData`), the set
`getCubiesInLayer('y', 1)` computes by its position-tolerance test is
not the set of pieces whose logical `gridPosition.y` equals 1. -/
theorem C2_counterexample :
    getCubiesInLayer 2 ((rotate (initState 2) .x 1 1 false).1).cubies .y 1 ≠
      ((rotate (initState 2) .x 1 1 false).1).cubies.filter
        (fun c => pickAxis .y c.user == 1) := by
  decide

/-- Claim C2, amended.  Layer selection is the tolerance test
`|pos - (layer - offset) * cubeSize| < 0.01` on the render position,
not integer equality on `gridPosition`; the two agree exactly on
states where every piece's render position is the grid embedding of
its logical position (and the size is below 1000, keeping the
tolerance below the grid pitch). -/
theorem C2_selection_matches_grid_when_in_sync (size : Nat) (cs : List Cubie)
    (a : Axis) (l : Int)
    (hsync : ∀ c ∈ cs, c.pos = gridEmbed size c.user)
    (hN : size < 1000) :
    getCubiesInLayer size cs a l = cs.filter (fun c => pickAxis a c.user == l) := by
  unfold getCubiesInLayer
  exact List.filter_congr fun c hc => inLayer_sync size a l c (hsync c hc) hN

/-- Witness for C2's amended theorem at a concrete in-sync state. -/
theorem C2_witness :
    getCubiesInLayer 3 (initState 3).cubies .x 0 =
      (initState 3).cubies.filter (fun c => pickAxis .x c.user == 0) :=
  C2_selection_matches_grid_when_in_sync 3 (initState 3).cubies .x 0
    (by decide) (by decide)

/-- Claim C9, amended.  A `rotate` call whose layer index is outside
`[0, size-1]` (on an in-sync, idle state) selects no cubies, so no
piece moves - but the call is not rejected: it is processed as a
normal turn, incrementing the move counter (and running the
timer/solved transitions); no error is signalled. -/
theorem C9_out_of_range_layer_counts_but_moves_nothing (st : EngineState)
    (a : Axis) (l d : Int)
    (h1 : st.isAnimating = false) (h2 : st.moveQueue = [])
    (hsync : ∀ c ∈ st.cubies, c.pos = gridEmbed st.size c.user)
    (hrange : ∀ c ∈ st.cubies, 0 ≤ pickAxis a c.user ∧ pickAxis a c.user < (st.size : Int))
    (hN : st.size < 1000)
    (hl : l < 0 ∨ (st.size : Int) ≤ l) :
    (rotate st a l d false).1.cubies = st.cubies ∧
      (rotate st a l d false).1.moves = st.moves + 1 := by
  rw [rotate_run st a l d h1]
  have hsize : (beginTurn st).size = st.size := by rw [beginTurn_eq]
  have hcub : (beginTurn st).cubies = st.cubies := beginTurn_cubies st
  have hq : (beginTurn st).moveQueue = [] := by rw [beginTurn_queue]; exact h2
  constructor
  · rw [finishMutation_cubies, hsize, hcub]
    unfold turnLayer
    have hid : ∀ c ∈ st.cubies,
        (if inLayer st.size a l c then turnCubie st.size a d c else c) = id c := by
      intro c hc
      have hin := inLayer_sync st.size a l c (hsync c hc) hN
      have hr := hrange c hc
      have hne : (pickAxis a c.user == l) = false := by
        simp only [beq_eq_false_iff_ne, ne_eq]
        rcases hl with hl | hl <;> omega
      rw [hin, hne]
      rfl
    rw [List.map_congr_left hid, List.map_id]
  · rw [finishMutation_moves_nil _ _ _ _ _ hq, beginTurn_eq]

/-- Witness for C9's amended theorem: fresh solved 3-cube, layer 5. -/
theorem C9_witness :
    (rotate (initState 3) .x 5 1 false).1.cubies = (initState 3).cubies ∧
      (rotate (initState 3) .x 5 1 false).1.moves = (initState 3).moves + 1 :=
  C9_out_of_range_layer_counts_but_moves_nothing (initState 3) .x 5 1
    rfl rfl (by decide) (by decide) (by decide) (by decide)

/-- Claim C10, counterexample.  A one-move `scramble` on a fresh
solved 3-cube (random stream constantly 0, so the internal turn is
`rotate('x', 0, +1, false)`) leaves the session timer running: the
scramble-internal turn started it, because the timer-start logic sits
inside `rotate` and does not distinguish player-initiated from
internally issued turns, and `scramble` never stops or resets the
timer. -/
theorem C10_counterexample :
    (scramble (initState 3) (some 1) (fun _ => 0)).isTimerRunning = true := by
  have hm : scrambleMoves (initState 3).size (some 1) (fun _ => 0) = [⟨.x, 0, 1⟩] := by
    unfold scrambleMoves scrambleCount
    norm_num [axisOf, layerOf, dirOf, List.range_succ]
  unfold scramble
  rw [hm]
  decide

/-- Claim C10, amended.  For a non-queued, non-animated `rotate` on an
idle engine with an empty queue: the timer is running afterwards iff it
was running before or the solved flag was set (the timer starts on the
first turn after a solved state, whoever issued it), and the turn's
solved check did not pass (reaching solved stops it).  No
player-vs-scramble distinction exists. -/
theorem C10_timer_started_by_any_turn (st : EngineState) (a : Axis) (l d : Int)
    (h1 : st.isAnimating = false) (h2 : st.moveQueue = []) :
    (rotate st a l d false).1.isTimerRunning =
      ((st.isTimerRunning || st.isSolvedFlag) &&
        !isSolvedCheck st.size (turnLayer st.size st.cubies a l d)) := by
  rw [rotate_run st a l d h1]
  have hq : (beginTurn st).moveQueue = [] := by rw [beginTurn_queue]; exact h2
  rw [finishMutation_timer_nil _ _ _ _ _ hq, beginTurn_eq]

/-- Witness for C10's amended theorem: the first turn on a fresh solved
3-cube. -/
theorem C10_witness :
    (rotate (initState 3) .x 0 1 false).1.isTimerRunning =
      (((initState 3).isTimerRunning || (initState 3).isSolvedFlag) &&
        !isSolvedCheck (initState 3).size
          (turnLayer (initState 3).size (initState 3).cubies .x 0 1)) :=
  C10_timer_started_by_any_turn (initState 3) .x 0 1 rfl rfl

/-!
Claim C3: the solved check.
-/

theorem bestAxisIdx_localNormal (d : Fin 6) : bestAxisIdx (localNormal d) = d := by
  fin_cases d <;> decide

/-- Under the identity orientation, `getFaceColor` returns the queried
face's own material colour. -/
theorem getFaceColor_id (c : Cubie) (d : Fin 6) (h : c.orient = Mat3.id) :
    getFaceColor c d = materialColor c d := by
  unfold getFaceColor
  rw [h, Mat3.apply_id, bestAxisIdx_localNormal]

/-- Under the identity orientation, the claim's facing-face rule also
returns the queried face itself. -/
theorem specFacingFace_id (c : Cubie) (d : Fin 6) (h : c.orient = Mat3.id) :
    specFacingFace c d = d := by
  unfold specFacingFace
  rw [h]
  fin_cases d <;> decide

theorem specFacingColor_id (c : Cubie) (d : Fin 6) (h : c.orient = Mat3.id) :
    specFacingColor c d = materialColor c d := by
  unfold specFacingColor
  rw [specFacingFace_id c d h]

theorem allSameHead_iff (l : List Nat) :
    allSameHead l = true ↔ ∀ a ∈ l, ∀ b ∈ l, a = b := by
  cases l with
  | nil => simp [allSameHead]
  | cons c rest =>
    simp only [allSameHead, List.all_eq_true, beq_iff_eq]
    constructor
    · intro h a ha b hb
      rw [h a ha, h b hb]
    · intro h v hv
      exact h v hv c (List.mem_cons_self c rest)

/-- Claim C3, counterexample.  Two cubies of a size-2 cube given
non-identity 90-degree orientations (reflecting the claim's own
premise that orientations evolve with turns).  `getFaceColor` rotates
the queried face's local normal and matches it against the world axes
- the inverse convention of the claim, which rotates all six local
normals and matches them against the queried world direction.  On this
state the code's `isSolved()` answers `true` while the claim's
predicate says `false`, so the claimed equivalence fails. -/
theorem C3_counterexample :
    isSolvedCheck 2
        [{ createCubie 2 1 0 0 with orient := ⟨⟨0, 1, 0⟩, ⟨-1, 0, 0⟩, ⟨0, 0, 1⟩⟩ },
         { createCubie 2 1 1 1 with orient := ⟨⟨0, 0, -1⟩, ⟨0, 1, 0⟩, ⟨1, 0, 0⟩⟩ }] = true ∧
      isSolvedSpecB 2
        [{ createCubie 2 1 0 0 with orient := ⟨⟨0, 1, 0⟩, ⟨-1, 0, 0⟩, ⟨0, 0, 1⟩⟩ },
         { createCubie 2 1 1 1 with orient := ⟨⟨0, 0, -1⟩, ⟨0, 1, 0⟩, ⟨1, 0, 0⟩⟩ }] = false := by
  exact ⟨by decide, by decide⟩

/-- Claim C3, amended: restricted to states in which every piece's
orientation is the identity - which holds in every state this engine
ever produces, since turns never modify orientations - `isSolved()`
agrees with the claim's description (and both conventions of reading
the facing colour coincide). -/
theorem C3_isSolved_iff_identity_orientation (size : Nat) (cs : List Cubie)
    (h : ∀ c ∈ cs, c.orient = Mat3.id) :
    (isSolvedCheck size cs = true ↔ isSolvedSpecB size cs = true) := by
  have hocc : occupiesBoundary = onFaceLayer := rfl
  unfold isSolvedCheck isSolvedSpecB faceListDir
  rw [hocc]
  simp only [List.all_eq_true]
  refine forall_congr' fun d => imp_congr_right fun _ => ?_
  rw [allSameHead_iff]
  simp only [List.all_eq_true, beq_iff_eq, List.mem_map, List.mem_filter]
  constructor
  · intro H p hp q hq
    have h1 := H (getFaceColor p d) ⟨p, hp, rfl⟩ (getFaceColor q d) ⟨q, hq, rfl⟩
    rwa [getFaceColor_id p d (h p hp.1), getFaceColor_id q d (h q hq.1),
      ← specFacingColor_id p d (h p hp.1), ← specFacingColor_id q d (h q hq.1)] at h1
  · intro H a ha b hb
    obtain ⟨p, hp, rfl⟩ := ha
    obtain ⟨q, hq, rfl⟩ := hb
    have h1 := H p hp q hq
    rwa [specFacingColor_id p d (h p hp.1), specFacingColor_id q d (h q hq.1),
      ← getFaceColor_id p d (h p hp.1), ← getFaceColor_id q d (h q hq.1)] at h1

/-- Witness for C3's amended theorem on the fresh size-2 cube. -/
theorem C3_witness :
    isSolvedCheck 2 (createCube 2) = true ↔ isSolvedSpecB 2 (createCube 2) = true :=
  C3_isSolved_iff_identity_orientation 2 (createCube 2) (by decide)

/-!
Claim C5: the turn queue.
-/

/-- Forget the execution flag of a performed mutation. -/
def toQueued (e : Exec) : QueuedMove := ⟨e.axis, e.layer, e.dir⟩

theorem animDone_some (st : EngineState) (q : QueuedMove) (h : st.pending = some q) :
    (animDone st).2 = [⟨q.axis, q.layer, q.dir, true⟩] ∧
      (animDone st).1.moveQueue = st.moveQueue.tail ∧
      (animDone st).1.pending = st.moveQueue.head? := by
  unfold animDone
  rw [h]
  exact ⟨finishMutation_execs _ _ _ _ _, finishMutation_queue _ _ _ _ _,
    finishMutation_pending _ _ _ _ _⟩

theorem drainAux_none (n : Nat) (st : EngineState) (h : st.pending = none) :
    drainAux n st = (st, []) := by
  cases n with
  | zero => rfl
  | succ m =>
    unfold drainAux
    rw [h]

theorem drainAux_spec (n : Nat) :
    ∀ (st : EngineState) (q : QueuedMove), st.pending = some q →
      st.moveQueue.length ≤ n →
      ((drainAux (n + 1) st).2.map toQueued = q :: st.moveQueue ∧
        (drainAux (n + 1) st).1.pending = none ∧
        (drainAux (n + 1) st).1.moveQueue = [] ∧
        ∀ e ∈ (drainAux (n + 1) st).2, e.animatedRun = true) := by
  induction n with
  | zero =>
    intro st q hp hlen
    have hq : st.moveQueue = [] := List.length_eq_zero.mp (Nat.le_zero.mp hlen)
    obtain ⟨he, hq2, hp2⟩ := animDone_some st q hp
    rw [hq] at hq2 hp2
    simp only [List.head?_nil, List.tail_nil] at hq2 hp2
    unfold drainAux
    rw [hp]
    simp only [drainAux_none 0 (animDone st).1 hp2]
    simp [he, hq, hq2, hp2, toQueued]
  | succ m ih =>
    intro st q hp hlen
    obtain ⟨he, hq2, hp2⟩ := animDone_some st q hp
    cases hq : st.moveQueue with
    | nil =>
      rw [hq] at hq2 hp2
      simp only [List.head?_nil, List.tail_nil] at hq2 hp2
      unfold drainAux
      rw [hp]
      simp only [drainAux_none (m + 1) (animDone st).1 hp2]
      simp [he, hq, hq2, hp2, toQueued]
    | cons q2 rest =>
      rw [hq] at hq2 hp2 hlen
      simp only [List.head?_cons, List.tail_cons] at hq2 hp2
      simp only [List.length_cons] at hlen
      have hlen2 : (animDone st).1.moveQueue.length ≤ m := by
        rw [hq2]
        omega
      obtain ⟨ih1, ih2, ih3, ih4⟩ := ih (animDone st).1 q2 hp2 hlen2
      unfold drainAux
      rw [hp]
      refine ⟨?_, ih2, ih3, ?_⟩
      · simp only [List.map_append, ih1, he, hq2, hq]
        rfl
      · intro e he2
        simp only [List.mem_append, he, List.mem_singleton] at he2
        rcases he2 with he2 | he2
        · rw [he2]
        · exact ih4 e he2

/-- Claim C5, counterexample.  Start an animated turn
`rotate('x',0,+1,true)` on a fresh 3-cube, then request
`rotate('y',2,+1,false)` while it is animating: the request is queued
(its `animated = false` flag is not stored).  After the first turn's
animation completes, the queued turn is dequeued and executed - but
with `animate` defaulted to `true`, not per its own requested flag:
its logical mutation completes at a second animation-completion event,
labelled as an animated run. -/
theorem C5_counterexample :
    (animDone (animDone
        ((rotate ((rotate (initState 3) .x 0 1 true).1) .y 2 1 false).1)).1).2 =
      [⟨.y, 2, 1, true⟩] := by
  decide

/-- Claim C5, amended.  A rotate requested while a turn is animating is
appended to the FIFO queue (storing only axis, layer and direction)
and the call returns with no state change beyond the queue; once the
in-progress turn's physical mutation completes, pending and queued
turns are executed one at a time, in enqueue order, each exactly once
and none dropped - but every dequeued turn runs animated (the default
flag), regardless of how it was originally requested. -/
theorem C5_queue_fifo_always_animated (st : EngineState) (a : Axis) (l d : Int)
    (an : Bool) (q : QueuedMove)
    (h1 : st.isAnimating = true) (h2 : st.pending = some q) :
    (rotate st a l d an = ({ st with moveQueue := st.moveQueue ++ [⟨a, l, d⟩] }, [])) ∧
      ((drain st).2.map toQueued = q :: st.moveQueue ∧
        (drain st).1.pending = none ∧
        (drain st).1.moveQueue = [] ∧
        ∀ e ∈ (drain st).2, e.animatedRun = true) :=
  ⟨rotate_queued st a l d an h1,
    drainAux_spec st.moveQueue.length st q h2 (Nat.le_refl _)⟩

/-- Concrete engine state for C5's witness: an animated `x/0/+1` turn
in flight with one queued request `y/2/+1`. -/
def c5St : EngineState :=
  { initState 3 with
    isAnimating := true
    pending := some ⟨.x, 0, 1⟩
    moveQueue := [⟨.y, 2, 1⟩] }

/-- Witness for C5's amended theorem. -/
theorem C5_witness :
    (rotate c5St .z 1 1 false =
        ({ c5St with moveQueue := c5St.moveQueue ++ [⟨.z, 1, 1⟩] }, [])) ∧
      ((drain c5St).2.map toQueued = ⟨.x, 0, 1⟩ :: c5St.moveQueue ∧
        (drain c5St).1.pending = none ∧
        (drain c5St).1.moveQueue = [] ∧
        ∀ e ∈ (drain c5St).2, e.animatedRun = true) :=
  C5_queue_fifo_always_animated c5St .z 1 1 false ⟨.x, 0, 1⟩ rfl rfl

/-!
Claim C6: scramble.
-/

theorem axisOf_uniform (r : ℚ) (h0 : 0 ≤ r) (h1 : r < 1) :
    (axisOf r = .x ↔ r < 1 / 3) ∧
      (axisOf r = .y ↔ 1 / 3 ≤ r ∧ r < 2 / 3) ∧
      (axisOf r = .z ↔ 2 / 3 ≤ r) := by
  have hk : ⌊r * 3⌋ = 0 ∨ ⌊r * 3⌋ = 1 ∨ ⌊r * 3⌋ = 2 := by
    have ha : 0 ≤ ⌊r * 3⌋ := Int.floor_nonneg.mpr (by positivity)
    have hb : ⌊r * 3⌋ < 3 := Int.floor_lt.mpr (by push_cast; linarith)
    omega
  rcases hk with hk | hk | hk <;>
    (have hk2 := hk; rw [Int.floor_eq_iff] at hk2; push_cast at hk2)
  · exact ⟨iff_of_true (by simp [axisOf, hk]) (by linarith [hk2.2]),
      iff_of_false (by simp [axisOf, hk]) (fun h => by linarith [h.1]),
      iff_of_false (by simp [axisOf, hk]) (fun h => by linarith)⟩
  · exact ⟨iff_of_false (by simp [axisOf, hk]) (fun h => by linarith [hk2.1]),
      iff_of_true (by simp [axisOf, hk]) ⟨by linarith [hk2.1], by linarith [hk2.2]⟩,
      iff_of_false (by simp [axisOf, hk]) (fun h => by linarith [hk2.2])⟩
  · exact ⟨iff_of_false (by simp [axisOf, hk]) (fun h => by linarith [hk2.1]),
      iff_of_false (by simp [axisOf, hk]) (fun h => by linarith [hk2.1, h.2]),
      iff_of_true (by simp [axisOf, hk]) (by linarith [hk2.1])⟩

theorem dirOf_uniform (r : ℚ) (h0 : 0 ≤ r) (h1 : r < 1) :
    (dirOf r = 1 ↔ r < 1 / 2) ∧ (dirOf r = -1 ↔ 1 / 2 ≤ r) := by
  have hk : ⌊r * 2⌋ = 0 ∨ ⌊r * 2⌋ = 1 := by
    have ha : 0 ≤ ⌊r * 2⌋ := Int.floor_nonneg.mpr (by positivity)
    have hb : ⌊r * 2⌋ < 2 := Int.floor_lt.mpr (by push_cast; linarith)
    omega
  rcases hk with hk | hk <;>
    (have hk2 := hk; rw [Int.floor_eq_iff] at hk2; push_cast at hk2)
  · exact ⟨iff_of_true (by simp [dirOf, hk]) (by linarith [hk2.2]),
      iff_of_false (by simp [dirOf, hk]) (fun h => by linarith)⟩
  · exact ⟨iff_of_false (by simp [dirOf, hk]) (fun h => by linarith [hk2.1]),
      iff_of_true (by simp [dirOf, hk]) (by linarith [hk2.1])⟩

theorem layerOf_uniform (size : Nat) (hN : 0 < size) (r : ℚ) (j : Int) :
    layerOf size r = j ↔ (j : ℚ) / (size : ℚ) ≤ r ∧ r < ((j : ℚ) + 1) / (size : ℚ) := by
  have hNpos : (0 : ℚ) < (size : ℚ) := by exact_mod_cast hN
  unfold layerOf
  rw [Int.floor_eq_iff, div_le_iff₀ hNpos, lt_div_iff₀ hNpos]

/-- Claim C6.  With no caller count, `scramble` issues exactly
`max(20, size * 5)` internally generated non-animated rotates whose
layers lie in `[0, size-1]` and directions in `{+1, -1}`; the three
per-move random draws are uniform (the preimage of each choice is an
equal-length subinterval of `[0,1)`); and on completion the move
counter is 0 and the solved flag is false, whatever the moves did. -/
theorem C6_scramble_default_profile (st : EngineState) (rs : Nat → ℚ)
    (hr : ∀ i, 0 ≤ rs i ∧ rs i < 1) (hN : 0 < st.size) :
    (scrambleMoves st.size none rs).length = max 20 (st.size * 5) ∧
      (∀ m ∈ scrambleMoves st.size none rs,
        0 ≤ m.layer ∧ m.layer < (st.size : Int) ∧ (m.dir = 1 ∨ m.dir = -1)) ∧
      (scramble st none rs).moves = 0 ∧
      (scramble st none rs).isSolvedFlag = false ∧
      (∀ r : ℚ, 0 ≤ r → r < 1 →
        (axisOf r = .x ↔ r < 1 / 3) ∧
          (axisOf r = .y ↔ 1 / 3 ≤ r ∧ r < 2 / 3) ∧
          (axisOf r = .z ↔ 2 / 3 ≤ r)) ∧
      (∀ (r : ℚ) (j : Int),
        layerOf st.size r = j ↔
          (j : ℚ) / (st.size : ℚ) ≤ r ∧ r < ((j : ℚ) + 1) / (st.size : ℚ)) ∧
      (∀ r : ℚ, 0 ≤ r → r < 1 →
        (dirOf r = 1 ↔ r < 1 / 2) ∧ (dirOf r = -1 ↔ 1 / 2 ≤ r)) := by
  have hNq : (0 : ℚ) < (st.size : ℚ) := by exact_mod_cast hN
  refine ⟨?_, ?_, rfl, rfl, fun r h0 h1 => axisOf_uniform r h0 h1,
    fun r j => layerOf_uniform st.size hN r j, fun r h0 h1 => dirOf_uniform r h0 h1⟩
  · simp [scrambleMoves, scrambleCount]
  · intro m hm
    simp only [scrambleMoves, List.mem_map, List.mem_range] at hm
    obtain ⟨i, -, rfl⟩ := hm
    refine ⟨?_, ?_, ?_⟩
    · exact Int.floor_nonneg.mpr
        (mul_nonneg (hr (3 * i + 1)).1 (by positivity))
    · apply Int.floor_lt.mpr
      have h2 := (hr (3 * i + 1)).2
      have := mul_lt_mul_of_pos_right h2 hNq
      rwa [one_mul] at this
    · unfold dirOf
      split
      · exact Or.inl rfl
      · exact Or.inr rfl

/-- Witness for C6 on a fresh 3-cube with the constant-zero stream. -/
theorem C6_witness :
    (scrambleMoves (initState 3).size none (fun _ => 0)).length =
        max 20 ((initState 3).size * 5) ∧
      (∀ m ∈ scrambleMoves (initState 3).size none (fun _ => 0),
        0 ≤ m.layer ∧ m.layer < ((initState 3).size : Int) ∧ (m.dir = 1 ∨ m.dir = -1)) ∧
      (scramble (initState 3) none (fun _ => 0)).moves = 0 ∧
      (scramble (initState 3) none (fun _ => 0)).isSolvedFlag = false ∧
      (∀ r : ℚ, 0 ≤ r → r < 1 →
        (axisOf r = .x ↔ r < 1 / 3) ∧
          (axisOf r = .y ↔ 1 / 3 ≤ r ∧ r < 2 / 3) ∧
          (axisOf r = .z ↔ 2 / 3 ≤ r)) ∧
      (∀ (r : ℚ) (j : Int),
        layerOf (initState 3).size r = j ↔
          (j : ℚ) / ((initState 3).size : ℚ) ≤ r ∧
            r < ((j : ℚ) + 1) / ((initState 3).size : ℚ)) ∧
      (∀ r : ℚ, 0 ≤ r → r < 1 →
        (dirOf r = 1 ↔ r < 1 / 2) ∧ (dirOf r = -1 ↔ 1 / 2 ≤ r)) :=
  C6_scramble_default_profile (initState 3) (fun _ => 0)
    (fun _ => ⟨le_refl 0, by norm_num⟩) (by decide)

/-!
Claim C7: the gesture interpreter.
-/

/-- Claim C7.  For every drag on a hit face whose world normal has some
component of magnitude above one half (true of every axis-aligned
cubie face normal), the command the source builds agrees with the
claim's fixed table: per-axis threshold, Y/X/Z priority
classification, horizontal-iff-`|dx|>|dy|`, base direction from the
table, sign flip on a negative dominant component, and layer from the
hit piece's grid coordinate. -/
theorem C7_gesture_matches_table (n : QVec3) (pu : IVec3) (dx dy : ℚ)
    (hdom : 1 / 2 < |n.y| ∨ 1 / 2 < |n.x| ∨ 1 / 2 < |n.z|) :
    onMouseMoveCommand n pu dx dy = gestureSpec n pu dx dy := by
  unfold onMouseMoveCommand gestureSpec classifyNorm signFlip
  by_cases ht : |dx| > 30 ∨ |dy| > 30
  · simp only [ht, if_true]
    by_cases hy : |n.y| > 1 / 2
    · simp only [hy, if_true]
      by_cases hd : |dx| > |dy| <;> by_cases hs : n.y < 0 <;>
        by_cases hp : dx > 0 <;> by_cases hq : dy > 0 <;>
        simp [hd, hs, hp, hq]
    · simp only [hy, if_false]
      by_cases hx : |n.x| > 1 / 2
      · simp only [hx, if_true]
        by_cases hd : |dx| > |dy| <;> by_cases hs : n.x < 0 <;>
          by_cases hp : dx > 0 <;> by_cases hq : dy > 0 <;>
          simp [hd, hs, hp, hq]
      · have hz : |n.z| > 1 / 2 := by
          rcases hdom with h | h | h
          · exact absurd h hy
          · exact absurd h hx
          · exact h
        simp only [hx, hz, if_true, if_false]
        by_cases hd : |dx| > |dy| <;> by_cases hs : n.z < 0 <;>
          by_cases hp : dx > 0 <;> by_cases hq : dy > 0 <;>
          simp [hd, hs, hp, hq]
  · simp [ht]

/-- Witness for C7: a drag of `(dx, dy) = (40, 0)` on the top face of
the piece at grid position `(1, 2, 0)` of a 3-cube. -/
theorem C7_witness :
    onMouseMoveCommand ⟨0, 1, 0⟩ ⟨1, 2, 0⟩ 40 0 = gestureSpec ⟨0, 1, 0⟩ ⟨1, 2, 0⟩ 40 0 :=
  C7_gesture_matches_table ⟨0, 1, 0⟩ ⟨1, 2, 0⟩ 40 0
    (Or.inl (by norm_num : (1 : ℚ) / 2 < |(1 : ℚ)|))

/-!
Claim C4: construction of the cubie grid.
-/

theorem nodup_flatMap_key {α β : Type} (l : List α) (g : α → List β) (key : β → α)
    (hl : l.Nodup) (hg : ∀ a ∈ l, (g a).Nodup) (hk : ∀ a, ∀ b ∈ g a, key b = a) :
    (l.flatMap g).Nodup := by
  induction l with
  | nil => simp
  | cons a as ih =>
    rw [List.flatMap_cons, List.nodup_append]
    refine ⟨hg a (List.mem_cons_self a as),
      ih (List.Nodup.of_cons hl) (fun x hx => hg x (List.mem_cons_of_mem a hx)), ?_⟩
    intro b hb hb2
    rw [List.mem_flatMap] at hb2
    obtain ⟨a2, ha2, hba2⟩ := hb2
    have h1 := hk a b hb
    have h2 := hk a2 b hba2
    rw [h1] at h2
    cases h2
    exact (List.nodup_cons.mp hl).1 ha2

/-- The option produced by the inner loop body, mapped to its `userData`. -/
theorem createCube_inner_user (size x y z : Nat) :
    (if x = 0 ∨ x = size - 1 ∨ y = 0 ∨ y = size - 1 ∨ z = 0 ∨ z = size - 1 then
        some (createCubie size x y z)
      else none).map Cubie.user =
      (if x = 0 ∨ x = size - 1 ∨ y = 0 ∨ y = size - 1 ∨ z = 0 ∨ z = size - 1 then
        some (⟨(x : Int), (y : Int), (z : Int)⟩ : IVec3)
      else none) := by
  split <;> rfl

theorem createCube_users_nodup (size : Nat) :
    ((createCube size).map Cubie.user).Nodup := by
  unfold createCube
  rw [List.map_flatMap]
  apply nodup_flatMap_key _ _ (fun v : IVec3 => v.x.toNat) (List.nodup_range size)
  · intro x hx
    rw [List.map_flatMap]
    apply nodup_flatMap_key _ _ (fun v : IVec3 => v.y.toNat) (List.nodup_range size)
    · intro y hy
      rw [List.map_filterMap]
      simp only [createCube_inner_user]
      refine List.Nodup.filterMap ?_ (List.nodup_range size)
      intro z1 z2 v hv1 hv2
      rw [Option.mem_def, Option.ite_none_right_eq_some, Option.some.injEq] at hv1 hv2
      have e1 : (z1 : Int) = v.z := congrArg IVec3.z hv1.2
      have e2 : (z2 : Int) = v.z := congrArg IVec3.z hv2.2
      omega
    · intro y v hv
      rw [List.map_filterMap] at hv
      simp only [createCube_inner_user] at hv
      rw [List.mem_filterMap] at hv
      obtain ⟨z, -, hz⟩ := hv
      rw [Option.ite_none_right_eq_some, Option.some.injEq] at hz
      have e1 : (y : Int) = v.y := congrArg IVec3.y hz.2
      omega
  · intro x v hv
    rw [List.map_flatMap, List.mem_flatMap] at hv
    obtain ⟨y, -, hv⟩ := hv
    rw [List.map_filterMap] at hv
    simp only [createCube_inner_user] at hv
    rw [List.mem_filterMap] at hv
    obtain ⟨z, -, hz⟩ := hv
    rw [Option.ite_none_right_eq_some, Option.some.injEq] at hz
    have e1 : (x : Int) = v.x := congrArg IVec3.x hz.2
    omega

theorem mem_createCube (size : Nat) (c : Cubie) :
    c ∈ createCube size ↔
      ∃ x y z : Nat, x < size ∧ y < size ∧ z < size ∧
        (x = 0 ∨ x = size - 1 ∨ y = 0 ∨ y = size - 1 ∨ z = 0 ∨ z = size - 1) ∧
        createCubie size x y z = c := by
  unfold createCube
  simp only [List.mem_flatMap, List.mem_range, List.mem_filterMap,
    Option.ite_none_right_eq_some, Option.some.injEq]
  constructor
  · rintro ⟨x, hx, y, hy, z, hz, hcond, hc⟩
    exact ⟨x, y, z, hx, hy, hz, hcond, hc⟩
  · rintro ⟨x, y, z, hx, hy, hz, hcond, hc⟩
    exact ⟨x, hx, y, hy, z, hz, hcond, hc⟩

/-- Claim C4.  `createCube` materializes exactly the surface shell:
the logical positions are pairwise distinct; a triple occurs iff each
coordinate is in `[0, size-1]` with at least one on the boundary; each
face toward a boundary direction carries that direction's canonical
colour and every other face carries no colour; and the canonical
direction-to-colour map (a constant of the program, identical for all
instances) is injective. -/
theorem C4_createCube_shell_and_colors (size : Nat) (h2 : 2 ≤ size) :
    ((createCube size).map Cubie.user).Nodup ∧
      (∀ v : IVec3, v ∈ (createCube size).map Cubie.user ↔ shellSpec size v) ∧
      (∀ c ∈ createCube size, ∀ i : Fin 6,
        materialArg c i = if occupiesBoundary size i c then some (canonColor i) else none) ∧
      (∀ i j : Fin 6, canonColor i = canonColor j → i = j) := by
  refine ⟨createCube_users_nodup size, fun v => ?_, fun c hc i => ?_, by decide⟩
  · rw [List.mem_map]
    constructor
    · rintro ⟨c, hc, rfl⟩
      rw [mem_createCube] at hc
      obtain ⟨x, y, z, hx, hy, hz, hcond, rfl⟩ := hc
      unfold shellSpec createCubie
      dsimp only
      omega
    · intro hv
      obtain ⟨⟨hx0, hx1⟩, ⟨hy0, hy1⟩, ⟨hz0, hz1⟩, hor⟩ := hv
      refine ⟨createCubie size v.x.toNat v.y.toNat v.z.toNat, ?_, ?_⟩
      · rw [mem_createCube]
        exact ⟨v.x.toNat, v.y.toNat, v.z.toNat, by omega, by omega, by omega, by omega, rfl⟩
      · cases v with
        | mk vx vy vz =>
          unfold createCubie
          dsimp only at hx0 hy0 hz0 ⊢
          congr 1 <;> omega
  · rw [mem_createCube] at hc
    obtain ⟨x, y, z, hx, hy, hz, -, rfl⟩ := hc
    fin_cases i <;>
      (simp only [materialArg, createCubie, occupiesBoundary, canonColor, beq_iff_eq]
       split <;> rename_i ha <;> split <;> rename_i hb <;> first | rfl | omega)

/-- Witness for C4 at size 2 (the smallest size the claim covers). -/
theorem C4_witness : ((createCube 2).map Cubie.user).Nodup :=
  (C4_createCube_shell_and_colors 2 (by norm_num)).1

end TwistyMaster
